import Mathlib

/-!
Shallow embedding of the WTA scraper crawl engine
(`scrapers/utils.py`, `scrapers/wta.py`, `scrapers/wta_reports.py`).

Modelling conventions:
- Python strings are Lean `String`s; `text_content() or ""` is modelled by a
  plain `String` (the source coalesces a missing text to `""` immediately).
- A DOM element that may be absent (guarded by `locator.count()` in the
  source) is an `Option String` holding its text when present.
- Python `datetime` values are `PyDateTime` records compared
  lexicographically, exactly as CPython compares naive component tuples.
- Side effects (page navigations, printed lines, the CSV file write) are
  returned explicitly: traversal functions return the number of pages
  navigated to, orchestrators return a `RunOutcome` carrying the rows, the
  fetch count, the optional file write and the printed log lines.
- `random.uniform a b` is modelled as `a + (b - a) * u` for a draw
  `u ∈ [0, 1]`, with the draw passed in as an argument.
-/

/-- Python's substring test `sub in s` at the character-list level:
`subAtStart` checks that `sub` is an initial segment. -/
def subAtStart : List Char → List Char → Bool
  | [], _ => true
  | _ :: _, [] => false
  | a :: as, b :: bs => a == b && subAtStart as bs

/-- Occurrence of `sub` anywhere in `l` (Python `sub in s`). -/
def hasSubList (sub : List Char) : List Char → Bool
  | [] => subAtStart sub []
  | b :: bs => subAtStart sub (b :: bs) || hasSubList sub bs

/-- Python's `sub in s` membership test on strings. -/
def pyInStr (sub s : String) : Bool :=
  hasSubList sub.toList s.toList

/-- Everything after the first occurrence of `sep` (Python
`s.split(sep, 1)[1]` when `sep` occurs). -/
def afterFirst (sep : Char) : List Char → List Char
  | [] => []
  | c :: rest => if c == sep then rest else afterFirst sep rest

/-- Python `str.strip()`: drop leading and trailing whitespace.
Implemented on character lists so that it reduces inside the kernel
(`String.trim` is built on substring loops that do not). -/
def pyStrip (s : String) : String :=
  String.mk (((s.toList.dropWhile Char.isWhitespace).reverse.dropWhile
    Char.isWhitespace).reverse)

/-- Python `str.lower()` for the ASCII strings this program handles. -/
def pyLower (s : String) : String :=
  String.mk (s.toList.map Char.toLower)

/-- Python `str.startswith(pre)`. -/
def pyStartsWith (pre s : String) : Bool :=
  subAtStart pre.toList s.toList

/-- Fuel-indexed worker for `pySplit` (structural recursion on the fuel so
that the kernel can evaluate it; the fuel is the input length, which bounds
the number of steps since `sep` is nonempty in every use). -/
def splitOnAuxL (sep : List Char) : Nat → List Char → List (List Char)
  | _, [] => [[]]
  | 0, l => [l]
  | fuel + 1, c :: rest =>
    if subAtStart sep (c :: rest) then
      [] :: splitOnAuxL sep fuel ((c :: rest).drop sep.length)
    else
      match splitOnAuxL sep fuel rest with
      | [] => [[c]]
      | h :: t => (c :: h) :: t

/-- Python `s.split(sep)` for a nonempty separator. -/
def pySplit (sep s : String) : List String :=
  (splitOnAuxL sep.toList s.toList.length s.toList).map String.mk

/-- Fuel-indexed worker for `pyReplace`. -/
def replaceAuxL (old new : List Char) : Nat → List Char → List Char
  | _, [] => []
  | 0, l => l
  | fuel + 1, c :: rest =>
    if subAtStart old (c :: rest) then
      new ++ replaceAuxL old new fuel ((c :: rest).drop old.length)
    else c :: replaceAuxL old new fuel rest

/-- Python `s.replace(old, new)` for a nonempty `old`: replace every
non-overlapping occurrence, scanning left to right. -/
def pyReplace (s old new : String) : String :=
  String.mk (replaceAuxL old.toList new.toList s.toList.length s.toList)

/-- Python `datetime` restricted to the components this program uses.
Parsed report dates have zero time-of-day; the cutoff instant may not. -/
structure PyDateTime where
  year : Nat
  month : Nat
  day : Nat
  hour : Nat
  minute : Nat
  second : Nat
deriving DecidableEq, Repr

/-- Python `datetime < datetime`: lexicographic comparison of components. -/
def dtLt (a b : PyDateTime) : Bool :=
  if a.year < b.year then true else if b.year < a.year then false
  else if a.month < b.month then true else if b.month < a.month then false
  else if a.day < b.day then true else if b.day < a.day then false
  else if a.hour < b.hour then true else if b.hour < a.hour then false
  else if a.minute < b.minute then true else if b.minute < a.minute then false
  else decide (a.second < b.second)

/-- Full month names recognised by strptime `%B` (matched case-insensitively). -/
def monthFullNames : List (String × Nat) :=
  [("january", 1), ("february", 2), ("march", 3), ("april", 4), ("may", 5),
   ("june", 6), ("july", 7), ("august", 8), ("september", 9), ("october", 10),
   ("november", 11), ("december", 12)]

/-- Abbreviated month names recognised by strptime `%b`. -/
def monthAbbrNames : List (String × Nat) :=
  [("jan", 1), ("feb", 2), ("mar", 3), ("apr", 4), ("may", 5), ("jun", 6),
   ("jul", 7), ("aug", 8), ("sep", 9), ("oct", 10), ("nov", 11), ("dec", 12)]

/-- Match one name from `names` case-insensitively at the head of the input
(CPython compiles month names into an IGNORECASE alternation; no month name
is a prefix of another within either table). -/
def matchNameCI (names : List (String × Nat)) (cs : List Char) :
    Option (Nat × List Char) :=
  match names with
  | [] => none
  | (nm, v) :: rest =>
    let nl := nm.toList
    if (cs.take nl.length).map Char.toLower == nl then some (v, cs.drop nl.length)
    else matchNameCI rest cs

/-- Numeric value of a digit character. -/
def digitVal (c : Char) : Nat := c.toNat - 48

/-- strptime `%d`: the regex `3[01]|[12]\d|0[1-9]|[1-9]` — a two-digit day
01–31 when possible, else a single digit 1–9. -/
def parseDayNum : List Char → Option (Nat × List Char)
  | c1 :: c2 :: rest =>
    if c1 == '3' && (c2 == '0' || c2 == '1') then some (30 + digitVal c2, rest)
    else if (c1 == '1' || c1 == '2') && c2.isDigit then
      some (digitVal c1 * 10 + digitVal c2, rest)
    else if c1 == '0' && c2.isDigit && c2 != '0' then some (digitVal c2, rest)
    else if c1.isDigit && c1 != '0' then some (digitVal c1, c2 :: rest)
    else none
  | [c1] => if c1.isDigit && c1 != '0' then some (digitVal c1, []) else none
  | [] => none

/-- strptime `%m`: the regex `1[0-2]|0[1-9]|[1-9]`. -/
def parseMonthNum : List Char → Option (Nat × List Char)
  | c1 :: c2 :: rest =>
    if c1 == '1' && (c2 == '0' || c2 == '1' || c2 == '2') then
      some (10 + digitVal c2, rest)
    else if c1 == '0' && c2.isDigit && c2 != '0' then some (digitVal c2, rest)
    else if c1.isDigit && c1 != '0' then some (digitVal c1, c2 :: rest)
    else none
  | [c1] => if c1.isDigit && c1 != '0' then some (digitVal c1, []) else none
  | [] => none

/-- strptime `%Y`: exactly four digits. -/
def parseYear4 : List Char → Option (Nat × List Char)
  | c1 :: c2 :: c3 :: c4 :: rest =>
    if c1.isDigit && c2.isDigit && c3.isDigit && c4.isDigit then
      some (((digitVal c1 * 10 + digitVal c2) * 10 + digitVal c3) * 10 + digitVal c4, rest)
    else none
  | _ => none

/-- One-or-more whitespace (a whitespace character in a strptime format
compiles to the regex `\s+`; the tokens after it here are never whitespace,
so greedy consumption is exact). -/
def parseWs : List Char → Option (List Char)
  | c :: rest => if c.isWhitespace then some (rest.dropWhile Char.isWhitespace) else none
  | [] => none

/-- A literal character of the format string. -/
def parseLit (c : Char) : List Char → Option (List Char)
  | x :: rest => if x == c then some rest else none
  | [] => none

/-- Gregorian leap year, as `calendar.isleap` / `datetime` use it. -/
def isLeap (y : Nat) : Bool := y % 4 == 0 && (y % 100 != 0 || y % 400 == 0)

/-- Days in a month, used by the `datetime` constructor's validation. -/
def daysInMonth (y m : Nat) : Nat :=
  if m == 2 then (if isLeap y then 29 else 28)
  else if m == 4 || m == 6 || m == 9 || m == 11 then 30
  else 31

/-- The `datetime(year, month, day)` constructor: rejects day-of-month out of
range and years outside 1..9999 with a `ValueError` (modelled as `none`). -/
def mkValidDate (y m d : Nat) : Option PyDateTime :=
  if 1 ≤ y && y ≤ 9999 && d ≤ daysInMonth y m then some ⟨y, m, d, 0, 0, 0⟩
  else none

/-- strptime with format `"%B %d, %Y"`. -/
def strptimeFullMonth (cs : List Char) : Option PyDateTime := do
  let (m, cs) ← matchNameCI monthFullNames cs
  let cs ← parseWs cs
  let (d, cs) ← parseDayNum cs
  let cs ← parseLit ',' cs
  let cs ← parseWs cs
  let (y, cs) ← parseYear4 cs
  if cs.isEmpty then mkValidDate y m d else none

/-- strptime with format `"%b. %d, %Y"`. -/
def strptimeAbbrDot (cs : List Char) : Option PyDateTime := do
  let (m, cs) ← matchNameCI monthAbbrNames cs
  let cs ← parseLit '.' cs
  let cs ← parseWs cs
  let (d, cs) ← parseDayNum cs
  let cs ← parseLit ',' cs
  let cs ← parseWs cs
  let (y, cs) ← parseYear4 cs
  if cs.isEmpty then mkValidDate y m d else none

/-- strptime with format `"%b %d, %Y"`. -/
def strptimeAbbr (cs : List Char) : Option PyDateTime := do
  let (m, cs) ← matchNameCI monthAbbrNames cs
  let cs ← parseWs cs
  let (d, cs) ← parseDayNum cs
  let cs ← parseLit ',' cs
  let cs ← parseWs cs
  let (y, cs) ← parseYear4 cs
  if cs.isEmpty then mkValidDate y m d else none

/-- strptime with format `"%Y-%m-%d"`. -/
def strptimeIso (cs : List Char) : Option PyDateTime := do
  let (y, cs) ← parseYear4 cs
  let cs ← parseLit '-' cs
  let (m, cs) ← parseMonthNum cs
  let cs ← parseLit '-' cs
  let (d, cs) ← parseDayNum cs
  if cs.isEmpty then mkValidDate y m d else none

/-- `wta_reports._parse_date_dt`: strip, then try the four accepted formats
in order; `None` when none matches (the UTC tzinfo attached by the source
does not affect comparisons, all datetimes here are UTC). -/
def _parse_date_dt (dateStr : String) : Option PyDateTime :=
  let cs := (pyStrip dateStr).toList
  (strptimeFullMonth cs).orElse fun _ =>
  (strptimeAbbrDot cs).orElse fun _ =>
  (strptimeAbbr cs).orElse fun _ =>
  strptimeIso cs

/-- `wta_reports._parse_report_date`: the date portion after the first
em dash of a report title, else the whole (stripped) title. -/
def _parse_report_date (titleText : String) : String :=
  if pyInStr "—" titleText then
    pyStrip (String.mk (afterFirst '—' titleText.toList))
  else pyStrip titleText

/-- Field values of an extracted record. A Python `None` is `null`; a float
value is represented by the literal the successful `float(...)` call accepted
(no claim depends on float magnitudes, only on which branch was taken and on
null-ness). -/
inductive Value where
  | null
  | str (s : String)
  | intv (n : Int)
  | floatv (lit : String)
  | boolv (b : Bool)
deriving DecidableEq, Repr

/-- An extracted record: an insertion-ordered mapping of field name to value,
as a Python dict. -/
abbrev Row : Type := List (String × Value)

/-- Python dict assignment `record[k] = v` for a key already present (every
assignment in the source writes a key of the initial dict literal, so
insertion order is unchanged). -/
def setField (r : Row) (k : String) (v : Value) : Row :=
  r.map (fun kv => if kv.1 == k then (k, v) else kv)

/-- One trip-report item inside `#trip-reports .item`: the title link's text
and the optional author / conditions / body elements (`none` when the
locator count is zero; the source coalesces a null `text_content()` of a
present element to `""`, so a present element is just its text). -/
structure ReportItem where
  title_text : String
  author : Option String
  conditions : Option String
  text_summary : Option String
deriving DecidableEq, Repr

/-- Text of an optional element followed by `.strip()`, with the source's
`""` default when the element is absent. -/
def optText : Option String → String
  | some t => pyStrip t
  | none => ""

/-- The dict literal appended for one kept report item
(`wta_reports.scrape_reports_for_trail`, lines 141-150). `ts` models the
`scraped_at()` clock reading. -/
def mkReportRow (trailUrl ts : String) (it : ReportItem) : Row :=
  [("trail_url", Value.str trailUrl),
   ("report_date", Value.str (_parse_report_date (pyStrip it.title_text))),
   ("author", Value.str (optText it.author)),
   ("conditions", Value.str (pyStrip (pyReplace (optText it.conditions) "Beware of:" ""))),
   ("snow_level", Value.str ""),
   ("text_summary", Value.str (optText it.text_summary)),
   ("source", Value.str "wta"),
   ("scraped_at", Value.str ts)]

/-- Environment for the wait-for-reports retry loop of one page: whether the
`wait_for_selector` call at attempt 0 and at attempt 1 succeeds within its
timeout. -/
structure WaitEnv where
  attempt0 : Bool
  attempt1 : Bool
deriving DecidableEq, Repr

/-- The `for attempt in range(2)` retry loop
(`scrape_reports_for_trail`, lines 86-96): returns whether the content
loaded and how many wait attempts were made. A failed first attempt is
followed by a `polite_delay(3.0, 6.0)` pause and exactly one retry. -/
def waitForReports (env : WaitEnv) : Bool × Nat :=
  if env.attempt0 then (true, 1)
  else if env.attempt1 then (true, 2)
  else (false, 2)

/-- One served page of a trail's report feed: its wait behaviour and its
items. The next-page affordance is modelled by whether the served sequence
continues (the source follows `nav.pagination li.next a`; the feed list is
exactly the sequence of pages those links reach). -/
structure ReportPage where
  load : WaitEnv
  items : List ReportItem
deriving DecidableEq, Repr

/-- The per-page item loop (`scrape_reports_for_trail`, lines 108-150):
returns the rows appended for this page, in order, and the final
`past_cutoff` flag. Structurally recursive rendering of the `for` loop; the
flag set by a dropped item absorbs any earlier value, as in the source. -/
def processItems (cutoff : PyDateTime) (trailUrl ts : String) :
    List ReportItem → List Row × Bool
  | [] => ([], false)
  | it :: its =>
    let rest := processItems cutoff trailUrl ts its
    match _parse_date_dt (_parse_report_date (pyStrip it.title_text)) with
    | some dt =>
      if dtLt dt cutoff then (rest.1, true)
      else (mkReportRow trailUrl ts it :: rest.1, rest.2)
    | none => (mkReportRow trailUrl ts it :: rest.1, rest.2)

/-- The `while True` pagination loop of `scrape_reports_for_trail`
(lines 84-168), carrying the accumulated rows and the number of pages
navigated to so far. Stops when the wait times out twice, when a page has
zero items, when `past_cutoff` was set, or when no next link exists
(feed exhausted). -/
def scrapeReportsLoop (cutoff : PyDateTime) (trailUrl ts : String) :
    List ReportPage → List Row → Nat → List Row × Nat
  | [], rows, n => (rows, n)
  | pg :: rest, rows, n =>
    if (waitForReports pg.load).1 = false then (rows, n + 1)
    else if pg.items.length = 0 then (rows, n + 1)
    else
      let pr := processItems cutoff trailUrl ts pg.items
      if pr.2 = true then (rows ++ pr.1, n + 1)
      else
        match rest with
        | [] => (rows ++ pr.1, n + 1)
        | r :: rs => scrapeReportsLoop cutoff trailUrl ts (r :: rs) (rows ++ pr.1) (n + 1)

/-- `wta_reports.scrape_reports_for_trail`: rows scraped from one trail's
report feed, plus the number of report pages navigated to. -/
def scrape_reports_for_trail (cutoff : PyDateTime) (trailUrl ts : String)
    (feed : List ReportPage) : List Row × Nat :=
  scrapeReportsLoop cutoff trailUrl ts feed [] 0

/-- Message printed by `utils.verify_auth` when the probe lands on a login
redirect. -/
def sessionExpiredMsg : String :=
  "Session has expired. Run `uv run scrapers/auth.py` to log in again."

/-- Message printed by `utils.verify_auth` when the session is valid. -/
def sessionValidMsg : String :=
  "Session is valid — proceeding with authenticated scrape."

/-- `utils.verify_auth`: given the URL the browser shows after navigating to
the members-only probe endpoint, returns whether the session is valid plus
the printed line. Invalid exactly when `"login"` occurs in that URL. -/
def verify_auth (finalUrl : String) : Bool × List String :=
  if pyInStr "login" finalUrl then (false, [sessionExpiredMsg])
  else (true, [sessionValidMsg])

/-- `random.uniform a b`, with the underlying draw `u ∈ [0, 1]` explicit:
`a + (b - a) * u`. -/
def randomUniform (a b u : ℚ) : ℚ := a + (b - a) * u

/-- `utils.polite_delay`: the slept duration, drawn uniformly from
`[min_s, max_s]` (source defaults `min_s = 2.0`, `max_s = 5.0`). -/
def polite_delay (min_s max_s u : ℚ) : ℚ := randomUniform min_s max_s u

/-- `utils.pagination_delay`: a base draw from `[1.0, 2.5]`, plus an extra
draw from `[5.0, 10.0]` on every positive multiple of 20. -/
def pagination_delay (page_num : Nat) (u1 u2 : ℚ) : ℚ :=
  let delay := randomUniform 1 (5 / 2) u1
  if page_num > 0 ∧ page_num % 20 = 0 then delay + randomUniform 5 10 u2
  else delay

/-- `utils.RAW_DATA_DIR` relative to the project root. -/
def RAW_DATA_DIR : String := "data/raw"

/-- `utils.csv_path`: `data/raw/<prefix>_<YYYYMMDD>.csv`, with the UTC date
string passed in as the clock reading. (The source also makes sure the
directory exists; that touches no output file.) -/
def csv_path (pfx dateStr : String) : String :=
  RAW_DATA_DIR ++ "/" ++ pfx ++ "_" ++ dateStr ++ ".csv"

/-- `utils.write_csv`: for an empty row list, no file effect and only the
diagnostic notice; otherwise one file write at `path` with the field names
taken from the first row's keys, plus the success line. The first component
is the file-writing effect performed (path, header, rows). -/
def write_csv (path : String) (rows : List Row) :
    Option (String × List String × List Row) × List String :=
  if rows.isEmpty then (none, ["No rows to write to " ++ path])
  else
    (some (path, (rows.headD []).map Prod.fst, rows),
     ["Wrote " ++ toString rows.length ++ " rows to " ++ path])

/-- Python `float(s)` acceptance, mantissa part: `digits [. digits] [exp]`
or `. digits [exp]`. -/
def floatMantissa (cs : List Char) : Bool :=
  let ds := cs.takeWhile Char.isDigit
  let rest := cs.dropWhile Char.isDigit
  match rest with
  | '.' :: rest2 =>
    let ds2 := rest2.takeWhile Char.isDigit
    let rest3 := rest2.dropWhile Char.isDigit
    (!ds.isEmpty || !ds2.isEmpty) && floatExp rest3
  | _ => !ds.isEmpty && floatExp rest
where
  /-- Optional exponent part `e[±]digits` closing the literal. -/
  floatExp : List Char → Bool
  | [] => true
  | c :: rest =>
    (c == 'e') &&
    (let rest2 := match rest with
      | s :: r => if s == '+' || s == '-' then r else s :: r
      | [] => []
     !(rest2.takeWhile Char.isDigit).isEmpty &&
       (rest2.dropWhile Char.isDigit).isEmpty)

/-- Python `float(s)` success: strip, lowercase, optional sign, then a
decimal literal or `inf`/`infinity`/`nan`. (Underscore digit separators,
legal in Python, are not modelled; no claim depends on them.) -/
def pyFloatOk (s : String) : Bool :=
  let t := (pyStrip s).toList.map Char.toLower
  let t := match t with
    | c :: r => if c == '+' || c == '-' then r else c :: r
    | [] => []
  t == "inf".toList || t == "infinity".toList || t == "nan".toList ||
    floatMantissa t

/-- Digits-only numeral value, `none` when empty or non-digit. -/
def natDigits? (cs : List Char) : Option Nat :=
  if cs.isEmpty then none
  else if cs.all Char.isDigit then
    some (cs.foldl (fun acc c => acc * 10 + digitVal c) 0)
  else none

/-- Python `int(s)` for base 10: strip, optional sign, digits.
(Underscore separators are again not modelled.) -/
def pyInt? (s : String) : Option Int :=
  match (pyStrip s).toList with
  | '+' :: r => (natDigits? r).map Int.ofNat
  | '-' :: r => (natDigits? r).map (fun n => -(Int.ofNat n : Int))
  | r => (natDigits? r).map Int.ofNat

/-- One `.hike-stat` block on a trail detail page: the `.title` label text
and the optional value element's text. -/
structure HikeStat where
  label : String
  value : Option String
deriving DecidableEq, Repr

/-- The DOM inputs `wta.scrape_hike_detail` reads from a loaded trail page:
each optional field is `none` when its locator matches no element. -/
structure HikeDetailPage where
  name : Option String
  stats : List HikeStat
  features : List String
  region : Option String
  desc : Option String
  season : Option String
deriving DecidableEq, Repr

/-- The initial record literal of `wta.scrape_hike_detail` (lines 38-54):
every content field null, provenance fields filled. -/
def hikeInitRecord (url ts : String) : Row :=
  [("trail_name", Value.null),
   ("location", Value.null),
   ("distance_miles", Value.null),
   ("elevation_gain_ft", Value.null),
   ("highest_point_ft", Value.null),
   ("difficulty", Value.null),
   ("trail_type", Value.null),
   ("required_pass", Value.null),
   ("dogs_allowed", Value.null),
   ("kid_friendly", Value.null),
   ("season_window", Value.null),
   ("highlight", Value.null),
   ("wta_url", Value.str url),
   ("source", Value.str "wta"),
   ("scraped_at", Value.str ts)]

/-- The trail-name block: set `trail_name` when the `h1` heading exists. -/
def applyName (name : Option String) (r : Row) : Row :=
  match name with
  | some t => setField r "trail_name" (Value.str (pyStrip t))
  | none => r

/-- The body of the stats loop (`scrape_hike_detail`, lines 64-94): label
matched by substring against the lowercased stripped `.title` text, numeric
fields parsed with a string fallback on `ValueError`. -/
def applyStat (r : Row) (st : HikeStat) : Row :=
  let label := pyLower (pyStrip st.label)
  let value := optText st.value
  if pyInStr "distance" label then
    let parts := pySplit "," value
    let head := pyStrip (pyReplace (parts.headD "") "miles" "")
    let r := setField r "distance_miles"
      (if pyFloatOk head then Value.floatv head else Value.str value)
    if parts.length > 1 then
      setField r "trail_type" (Value.str (pyStrip (parts.getD 1 "")))
    else r
  else if pyInStr "gain" label || pyInStr "elevation" label then
    setField r "elevation_gain_ft"
      (match pyInt? (pyStrip (pyReplace (pyReplace value "," "") "feet" "")) with
       | some n => Value.intv n
       | none => Value.str value)
  else if pyInStr "highest" label then
    setField r "highest_point_ft"
      (match pyInt? (pyStrip (pyReplace (pyReplace value "," "") "feet" "")) with
       | some n => Value.intv n
       | none => Value.str value)
  else if pyInStr "difficulty" label then
    setField r "difficulty" (Value.str value)
  else if pyInStr "pass" label || pyInStr "permit" label then
    setField r "required_pass" (Value.str value)
  else r

/-- The dogs/kid feature-tag block (lines 97-104): membership of the
stripped, lowercased feature texts. -/
def applyFeatureFlags (features : List String) (r : Row) : Row :=
  let feature_texts := features.map (fun t => pyLower (pyStrip t))
  let r := setField r "dogs_allowed"
    (Value.boolv (feature_texts.contains "dogs allowed on leash" ||
      feature_texts.contains "dogs allowed"))
  setField r "kid_friendly"
    (Value.boolv (feature_texts.contains "kid friendly" ||
      feature_texts.contains "good for kids"))

/-- The region block (lines 107-109). -/
def applyRegion (region : Option String) (r : Row) : Row :=
  match region with
  | some t => setField r "location" (Value.str (pyStrip t))
  | none => r

/-- The highlight block (lines 112-116): first sentence of the description,
with a dot restored when the split produced more than one part. -/
def applyDesc (desc : Option String) (r : Row) : Row :=
  match desc with
  | some t =>
    let full_text := pyStrip t
    let sentences := pySplit "." full_text
    setField r "highlight"
      (Value.str (pyStrip (sentences.headD "") ++
        (if sentences.length > 1 then "." else "")))
  | none => r

/-- The season block (lines 119-121). -/
def applySeason (season : Option String) (r : Row) : Row :=
  match season with
  | some t => setField r "season_window" (Value.str (pyStrip t))
  | none => r

/-- `wta.scrape_hike_detail`: the record extracted from one loaded trail
detail page, with the stages applied in source order. -/
def scrape_hike_detail (pg : HikeDetailPage) (url ts : String) : Row :=
  applySeason pg.season
    (applyDesc pg.desc
      (applyRegion pg.region
        (applyFeatureFlags pg.features
          (pg.stats.foldl applyStat
            (applyName pg.name (hikeInitRecord url ts))))))

/-- One listing page of the hiking guide: the `href` attributes of its
`a.listitem-title` links (`none` when `get_attribute` returned null). The
next-page affordance is again modelled by the served sequence continuing. -/
structure ListingPage where
  links : List (Option String)
deriving DecidableEq, Repr

/-- The body of the link loop in `wta.get_hike_urls` (lines 145-150):
skip null/empty hrefs and hrefs without the hike-detail segment, resolve
relative hrefs against the site domain, and append unseen URLs. -/
def addHikeLink (urls : List String) (href? : Option String) : List String :=
  match href? with
  | none => urls
  | some href =>
    if href != "" && pyInStr "/go-hiking/hikes/" href then
      let full := if pyStartsWith "http" href then href
        else "https://www.wta.org" ++ href
      if urls.contains full then urls else urls ++ [full]
    else urls

/-- The `while current_url and page_num < max_pages` loop of
`wta.get_hike_urls` (lines 137-162): the empty list is the `current_url is
None` state after a page without a next link. Returns the collected URLs
and the final page count. -/
def getHikeUrlsLoop (maxPages : Nat) :
    List ListingPage → Nat → List String → List String × Nat
  | [], pn, urls => (urls, pn)
  | pg :: rest, pn, urls =>
    if pn < maxPages then
      getHikeUrlsLoop maxPages rest (pn + 1) (pg.links.foldl addHikeLink urls)
    else (urls, pn)

/-- `wta.get_hike_urls`: unique hike detail URLs collected from the listing
feed, plus the number of listing pages fetched. The source's `max_pages`
default is 20. -/
def get_hike_urls (feed : List ListingPage) (maxPages : Nat) :
    List String × Nat :=
  getHikeUrlsLoop maxPages feed 0 []

/-- The error line printed when processing one seed raises
(`wta.run` line 196, `wta_reports.run` line 223). -/
def errorLine (url e : String) : String :=
  "  ERROR scraping " ++ url ++ ": " ++ e

/-- Observable outcome of one whole run: the aggregated rows, the number of
entity pages navigated to, the CSV file write performed (if any), and the
printed lines the model tracks (session probe, per-seed errors, CSV notice;
purely informational progress prints are omitted). -/
structure RunOutcome where
  rows : List Row
  pagesFetched : Nat
  written : Option (String × List String × List Row)
  log : List String
deriving DecidableEq

/-- The per-seed `try/except` loop of `wta_reports.run` (lines 216-223):
each seed's environment is either the report feed its trail page serves, or
the exception raised while processing it. Returns (rows, pages fetched,
error lines). -/
def seedLoopReports (cutoff : PyDateTime) (ts : String) :
    List (String × Except String (List ReportPage)) →
      List Row × Nat × List String
  | [] => ([], 0, [])
  | (url, Except.ok feed) :: rest =>
    let r := scrape_reports_for_trail cutoff url ts feed
    let acc := seedLoopReports cutoff ts rest
    (r.1 ++ acc.1, r.2 + acc.2.1, acc.2.2)
  | (url, Except.error e) :: rest =>
    let acc := seedLoopReports cutoff ts rest
    (acc.1, acc.2.1, errorLine url e :: acc.2.2)

/-- `wta_reports.run`: probe the session, then scrape every seed with
per-seed error catching, then hand the aggregate to `write_csv`. An invalid
session returns before any traversal and before the output path is used. -/
def runReports (authFinalUrl : String)
    (seeds : List (String × Except String (List ReportPage)))
    (cutoff : PyDateTime) (ts dateStr : String) : RunOutcome :=
  let auth := verify_auth authFinalUrl
  if auth.1 = false then ⟨[], 0, none, auth.2⟩
  else
    let acc := seedLoopReports cutoff ts seeds
    let w := write_csv (csv_path "wta_reports" dateStr) acc.1
    ⟨acc.1, acc.2.1, w.1, auth.2 ++ acc.2.2 ++ w.2⟩

/-- The per-seed `try/except` loop of `wta.run` (lines 189-196): each hike
URL's environment is either the loaded detail page or the exception raised
while navigating/extracting it. Every seed costs one navigation attempt. -/
def seedLoopHikes (ts : String) :
    List (String × Except String HikeDetailPage) →
      List Row × Nat × List String
  | [] => ([], 0, [])
  | (url, Except.ok pg) :: rest =>
    let acc := seedLoopHikes ts rest
    (scrape_hike_detail pg url ts :: acc.1, acc.2.1 + 1, acc.2.2)
  | (url, Except.error e) :: rest =>
    let acc := seedLoopHikes ts rest
    (acc.1, acc.2.1 + 1, errorLine url e :: acc.2.2)

/-- `wta.run` (single-trail mode or with an already collected URL list):
probe the session, scrape each detail page with per-seed error catching,
write the aggregate. -/
def runHikes (authFinalUrl : String)
    (seeds : List (String × Except String HikeDetailPage))
    (ts dateStr : String) : RunOutcome :=
  let auth := verify_auth authFinalUrl
  if auth.1 = false then ⟨[], 0, none, auth.2⟩
  else
    let acc := seedLoopHikes ts seeds
    let w := write_csv (csv_path "wta_hikes" dateStr) acc.1
    ⟨acc.1, acc.2.1, w.1, auth.2 ++ acc.2.2 ++ w.2⟩

/-- Whether the cutoff gate keeps a report item: kept unless its date parses
cleanly to an instant strictly before the cutoff. Restates the drop test of
`scrape_reports_for_trail` lines 117-119 for the spec-side
characterisations. -/
def keepItem (cutoff : PyDateTime) (it : ReportItem) : Bool :=
  match _parse_date_dt (_parse_report_date (pyStrip it.title_text)) with
  | some dt => !(dtLt dt cutoff)
  | none => true

/-- Spec-side: the rows a page contributes — its kept items, in order. -/
def pageKeptRows (cutoff : PyDateTime) (trailUrl ts : String)
    (pg : ReportPage) : List Row :=
  (pg.items.filter (keepItem cutoff)).map (mkReportRow trailUrl ts)

/-- Spec-side: the prefix of the feed the cutoff rule lets the scraper
process — every page up to and including the first page containing a
before-cutoff item ("finish the page, then stop"). -/
def processedPrefix (cutoff : PyDateTime) : List ReportPage → List ReportPage
  | [] => []
  | pg :: rest =>
    pg :: (if pg.items.any (fun it => !keepItem cutoff it) then []
           else processedPrefix cutoff rest)

/-- Spec-side: first-occurrence deduplication, as the `if full not in urls`
guard produces. -/
def dedupFirst (l : List String) : List String :=
  l.foldl (fun acc x => if acc.contains x then acc else acc ++ [x]) []

/-- Spec-side: the candidate URL an href contributes, if any — the filter
and domain resolution of `get_hike_urls` without the dedup guard. -/
def hikeCandidate (href? : Option String) : Option String :=
  match href? with
  | none => none
  | some href =>
    if href != "" && pyInStr "/go-hiking/hikes/" href then
      some (if pyStartsWith "http" href then href
            else "https://www.wta.org" ++ href)
    else none

/-- Spec-side: all candidate URLs on the listing pages the loop visits. -/
def hikeCandidates (feed : List ListingPage) (maxPages : Nat) : List String :=
  (feed.take maxPages).flatMap (fun pg => pg.links.filterMap hikeCandidate)

/-- Keys of a hike detail record, in insertion order. -/
def hikeFieldNames : List String :=
  ["trail_name", "location", "distance_miles", "elevation_gain_ft",
   "highest_point_ft", "difficulty", "trail_type", "required_pass",
   "dogs_allowed", "kid_friendly", "season_window", "highlight",
   "wta_url", "source", "scraped_at"]

/-- Keys of a trip-report record, in insertion order. -/
def reportFieldNames : List String :=
  ["trail_url", "report_date", "author", "conditions", "snow_level",
   "text_summary", "source", "scraped_at"]

/-- A concrete cutoff instant (2026-01-15 UTC) for the worked scenarios. -/
def cutoffJan2026 : PyDateTime := ⟨2026, 1, 15, 0, 0, 0⟩

/-- A report item dated far after any realistic cutoff. -/
def farFutureItem : ReportItem :=
  ⟨"Mt Si — February 1, 3000", some "alice", none, none⟩

/-- A page that loads on the first wait and keeps serving next links while
the feed continues. -/
def okPage : ReportPage := ⟨⟨true, true⟩, [farFutureItem]⟩

/-- A single-page feed of recent reports. -/
def goodReportFeed : List ReportPage := [okPage]

/-- A report item whose optional author / conditions / body elements are all
absent from the DOM. -/
def bareReportItem : ReportItem := ⟨"Mt Si — Feb. 12, 2026", none, none, none⟩

/-- A hike detail page on which every optional element is missing. -/
def emptyHikePage : HikeDetailPage := ⟨none, [], [], none, none, none⟩

/-- A report item whose title yields a date string matching no accepted
format. -/
def unparseableItem : ReportItem :=
  ⟨"Mt Si — sometime last week", none, none, none⟩

/-- A report item dated before `cutoffJan2026`. -/
def oldItem : ReportItem :=
  ⟨"Mt Si — January 1, 2026", some "bob", some "Beware of: ice", some "icy"⟩

/-- Report items dated after `cutoffJan2026`. -/
def keepItemA : ReportItem :=
  ⟨"Mt Si — February 10, 2026", some "alice", none, some "Great hike"⟩

/-- Second after-cutoff item (abbreviated month format). -/
def keepItemB : ReportItem := ⟨"Mt Si — Jan. 20, 2026", none, some "snow", none⟩

/-- Third after-cutoff item. -/
def keepItemC : ReportItem := ⟨"Mt Si — January 16, 2026", some "carol", none, none⟩

/-- The 3-page scenario feed: page 1 entirely after the cutoff, page 2
straddling it (with one unparseable date), page 3 reachable but — per the
claim — never fetched. -/
def scenarioFeed : List ReportPage :=
  [⟨⟨true, true⟩, [keepItemA, keepItemB]⟩,
   ⟨⟨true, true⟩, [keepItemC, oldItem, unparseableItem]⟩,
   ⟨⟨true, true⟩, [keepItemA]⟩]

/-- A page whose content marker never appears within either wait attempt. -/
def timeoutPage : ReportPage := ⟨⟨false, false⟩, [keepItemA]⟩

/-- A small listing feed exercising relative and absolute hrefs, null and
empty hrefs, a non-hike link, and a duplicate across pages. -/
def sampleListingFeed : List ListingPage :=
  [⟨[some "/go-hiking/hikes/mt-si",
     some "https://www.wta.org/go-hiking/hikes/mailbox-peak",
     none, some "", some "/news/magazine"]⟩,
   ⟨[some "/go-hiking/hikes/mt-si", some "/go-hiking/hikes/granite-mountain"]⟩]


/-- C8: for every outcome of the random draws (`u, u1, u2 ∈ [0, 1]`), the
inter-request delay with the source's defaults lies in `[2, 5]` seconds, and
the pagination delay for page `n` lies in `[1, 2.5]` when `n` is not a
positive multiple of 20 and in `[6, 12.5]` when it is. -/
theorem c8_delay_bounds (n : Nat) (u u1 u2 : ℚ)
    (hu0 : 0 ≤ u) (hu1 : u ≤ 1) (h10 : 0 ≤ u1) (h11 : u1 ≤ 1)
    (h20 : 0 ≤ u2) (h21 : u2 ≤ 1) :
    (2 ≤ polite_delay 2 5 u ∧ polite_delay 2 5 u ≤ 5) ∧
    (¬(n > 0 ∧ n % 20 = 0) →
      1 ≤ pagination_delay n u1 u2 ∧ pagination_delay n u1 u2 ≤ 5 / 2) ∧
    ((n > 0 ∧ n % 20 = 0) →
      6 ≤ pagination_delay n u1 u2 ∧ pagination_delay n u1 u2 ≤ 25 / 2) := by
  simp only [polite_delay, pagination_delay, randomUniform]
  refine ⟨⟨by nlinarith, by nlinarith⟩, ?_, ?_⟩
  · intro h
    rw [if_neg h]
    exact ⟨by nlinarith, by nlinarith⟩
  · intro h
    rw [if_pos h]
    exact ⟨by nlinarith, by nlinarith⟩

/-- Witness for C8 at page index 20 with midpoint draws. -/
theorem c8_delay_bounds_witness :
    (2 ≤ polite_delay 2 5 (1 / 2) ∧ polite_delay 2 5 (1 / 2) ≤ 5) ∧
    (6 ≤ pagination_delay 20 (1 / 2) (1 / 2) ∧
      pagination_delay 20 (1 / 2) (1 / 2) ≤ 25 / 2) :=
  have h := c8_delay_bounds 20 (1 / 2) (1 / 2) (1 / 2)
    (by norm_num) (by norm_num) (by norm_num) (by norm_num) (by norm_num) (by norm_num)
  ⟨h.1, h.2.2 (by norm_num)⟩

/-- C9: `write_csv` on an empty result set performs no file write and emits
only the diagnostic notice; on a nonempty result set it performs exactly one
write, at the given path, with the first row's keys as header; `csv_path`
derives that path from the entity prefix and the UTC date; and a completed
report run writes exactly the aggregate at the `csv_path`-derived path. -/
theorem c9_write_csv_frame (path pfx dateStr : String) (rows : List Row)
    (authUrl ts : String) (cutoff : PyDateTime)
    (seeds : List (String × Except String (List ReportPage))) :
    (rows = [] → write_csv path rows = (none, ["No rows to write to " ++ path])) ∧
    (rows ≠ [] → (write_csv path rows).1 =
      some (path, (rows.headD []).map Prod.fst, rows)) ∧
    csv_path pfx dateStr = "data/raw/" ++ pfx ++ "_" ++ dateStr ++ ".csv" ∧
    ((verify_auth authUrl).1 = true →
      (runReports authUrl seeds cutoff ts dateStr).written =
        (write_csv (csv_path "wta_reports" dateStr)
          (seedLoopReports cutoff ts seeds).1).1) := by
  refine ⟨?_, ?_, rfl, ?_⟩
  · intro h
    subst h
    rfl
  · intro h
    cases rows with
    | nil => exact absurd rfl h
    | cons r rest => rfl
  · intro h
    unfold runReports
    rw [if_neg (by simp [h])]

/-- Witness for C9: one empty and one nonempty write at a derived path. -/
theorem c9_write_csv_frame_witness :
    write_csv "data/raw/wta_hikes_20260215.csv" [] =
      (none, ["No rows to write to data/raw/wta_hikes_20260215.csv"]) ∧
    (write_csv "data/raw/wta_hikes_20260215.csv" [[("a", Value.null)]]).1 =
      some ("data/raw/wta_hikes_20260215.csv", ["a"], [[("a", Value.null)]]) ∧
    csv_path "wta_hikes" "20260215" = "data/raw/wta_hikes_20260215.csv" :=
  have h := c9_write_csv_frame "data/raw/wta_hikes_20260215.csv" "wta_hikes"
    "20260215" [[("a", Value.null)]] "https://www.wta.org/ok" "ts" cutoffJan2026 []
  have h0 := c9_write_csv_frame "data/raw/wta_hikes_20260215.csv" "wta_hikes"
    "20260215" ([] : List Row) "https://www.wta.org/ok" "ts" cutoffJan2026 []
  ⟨h0.1 rfl, h.2.1 (by decide), h.2.2.1⟩

/-- C4: `verify_auth` reports an invalid session exactly when the URL
reached after navigating to the members-only probe indicates a login
redirect (`"login"` occurs in it); and whenever it does, both run
orchestrators abort before any traversal: zero detail/report pages are
fetched, no output file is written, the aggregated rows are empty, and the
distinct re-authenticate message is the only output. -/
theorem c4_auth_gate (u ts d ts2 d2 : String) (cutoff : PyDateTime)
    (seedsR : List (String × Except String (List ReportPage)))
    (seedsH : List (String × Except String HikeDetailPage)) :
    ((verify_auth u).1 = false ↔ pyInStr "login" u = true) ∧
    ((verify_auth u).1 = false →
      (runReports u seedsR cutoff ts d).pagesFetched = 0 ∧
      (runReports u seedsR cutoff ts d).written = none ∧
      (runReports u seedsR cutoff ts d).rows = [] ∧
      (runReports u seedsR cutoff ts d).log = [sessionExpiredMsg] ∧
      (runHikes u seedsH ts2 d2).pagesFetched = 0 ∧
      (runHikes u seedsH ts2 d2).written = none ∧
      (runHikes u seedsH ts2 d2).rows = [] ∧
      (runHikes u seedsH ts2 d2).log = [sessionExpiredMsg]) := by
  cases h : pyInStr "login" u with
  | false =>
    constructor
    · simp [verify_auth, h]
    · intro hf
      exact absurd hf (by simp [verify_auth, h])
  | true =>
    constructor
    · simp [verify_auth, h]
    · intro _
      simp [runReports, runHikes, verify_auth, h]

/-- Witness for C4 at a concrete login-redirect URL. -/
theorem c4_auth_gate_witness :
    (runReports "https://www.wta.org/login?came_from=account" [] cutoffJan2026
      "ts" "20260115").pagesFetched = 0 ∧
    (runReports "https://www.wta.org/login?came_from=account" [] cutoffJan2026
      "ts" "20260115").written = none ∧
    (runHikes "https://www.wta.org/login?came_from=account" [] "ts"
      "20260115").log = [sessionExpiredMsg] :=
  have h := (c4_auth_gate "https://www.wta.org/login?came_from=account"
    "ts" "20260115" "ts" "20260115" cutoffJan2026 [] []).2 (by decide)
  ⟨h.1, h.2.1, h.2.2.2.2.2.2.2⟩

/-- C5: the content wait makes at most two attempts (one retry); when the
first attempt times out it makes exactly two; when both time out the page
loop stops with the rows collected so far ("zero items here, stop
paginating") rather than raising; and a seed whose first page times out
twice contributes zero records and zero error lines to the run. -/
theorem c5_timeout_retry (cutoff : PyDateTime) (u ts d authUrl url : String)
    (p : ReportPage) (rest : List ReportPage) (rows : List Row) (n : Nat) :
    (∀ env : WaitEnv, (waitForReports env).2 ≤ 2) ∧
    (∀ env : WaitEnv, env.attempt0 = false → (waitForReports env).2 = 2) ∧
    ((waitForReports p.load).1 = false →
      scrapeReportsLoop cutoff u ts (p :: rest) rows n = (rows, n + 1)) ∧
    ((verify_auth authUrl).1 = true → (waitForReports p.load).1 = false →
      (runReports authUrl [(url, Except.ok (p :: rest))] cutoff ts d).rows = [] ∧
      (runReports authUrl [(url, Except.ok (p :: rest))] cutoff ts d).log =
        [sessionValidMsg, "No rows to write to " ++ csv_path "wta_reports" d]) := by
  have hw : ∀ env : WaitEnv, (waitForReports env).2 ≤ 2 := by
    intro env
    rcases env with ⟨a0, a1⟩
    cases a0 <;> cases a1 <;> decide
  have hw2 : ∀ env : WaitEnv, env.attempt0 = false → (waitForReports env).2 = 2 := by
    intro env h0
    rcases env with ⟨a0, a1⟩
    cases a0 with
    | false => cases a1 <;> rfl
    | true => simp at h0
  have hstop : (waitForReports p.load).1 = false →
      scrapeReportsLoop cutoff u ts (p :: rest) rows n = (rows, n + 1) := by
    intro hf
    unfold scrapeReportsLoop
    rw [if_pos hf]
  refine ⟨hw, hw2, hstop, ?_⟩
  intro hauth hf
  have hva : verify_auth authUrl = (true, [sessionValidMsg]) := by
    cases h : pyInStr "login" authUrl with
    | false => simp [verify_auth, h]
    | true => exact absurd hauth (by simp [verify_auth, h])
  have hscrape : scrape_reports_for_trail cutoff url ts (p :: rest) = ([], 1) := by
    unfold scrape_reports_for_trail
    unfold scrapeReportsLoop
    rw [if_pos hf]
  constructor
  · simp [runReports, hva, seedLoopReports, hscrape]
  · simp [runReports, hva, seedLoopReports, hscrape, write_csv]

/-- Witness for C5 at a concrete timing-out first page. -/
theorem c5_timeout_retry_witness :
    (waitForReports timeoutPage.load).2 = 2 ∧
    scrapeReportsLoop cutoffJan2026 "u" "ts" [timeoutPage, okPage] [] 0 = ([], 1) ∧
    (runReports "https://www.wta.org/ok" [("https://t", Except.ok [timeoutPage, okPage])]
      cutoffJan2026 "ts" "20260115").rows = [] :=
  have h := c5_timeout_retry cutoffJan2026 "u" "ts" "20260115"
    "https://www.wta.org/ok" "https://t" timeoutPage [okPage] [] 0
  ⟨h.2.1 timeoutPage.load rfl, h.2.2.1 rfl, (h.2.2.2 (by decide) rfl).1⟩

/-- The per-page item loop keeps exactly the items the cutoff gate keeps, in
order, and its `past_cutoff` flag is set exactly when some item on the page
was dropped. -/
theorem processItems_eq (cutoff : PyDateTime) (u ts : String)
    (items : List ReportItem) :
    processItems cutoff u ts items =
      ((items.filter (keepItem cutoff)).map (mkReportRow u ts),
       items.any (fun it => !keepItem cutoff it)) := by
  induction items with
  | nil => rfl
  | cons it its ih =>
    simp only [processItems, ih, List.filter_cons, List.any_cons]
    cases hp : _parse_date_dt (_parse_report_date (pyStrip it.title_text)) with
    | none => simp [keepItem, hp]
    | some dt =>
      cases hlt : dtLt dt cutoff with
      | false => simp [keepItem, hp, hlt]
      | true => simp [keepItem, hp, hlt]

/-- The pagination loop under normally-loading, nonempty pages: it processes
exactly the pages up to and including the first page containing a
before-cutoff item, appends each processed page's kept rows in order, and
navigates to exactly that many pages. -/
theorem scrapeLoop_char (cutoff : PyDateTime) (u ts : String) :
    ∀ (feed : List ReportPage) (rows : List Row) (n : Nat),
      (∀ pg ∈ feed, (waitForReports pg.load).1 = true ∧ pg.items ≠ []) →
      scrapeReportsLoop cutoff u ts feed rows n =
        (rows ++ (processedPrefix cutoff feed).flatMap (pageKeptRows cutoff u ts),
         n + (processedPrefix cutoff feed).length) := by
  intro feed
  induction feed with
  | nil =>
    intro rows n _
    simp [scrapeReportsLoop, processedPrefix]
  | cons pg rest ih =>
    intro rows n h
    have h1 := (h pg (List.mem_cons_self pg rest)).1
    have h2 := (h pg (List.mem_cons_self pg rest)).2
    have hrest : ∀ p ∈ rest, (waitForReports p.load).1 = true ∧ p.items ≠ [] :=
      fun p hp => h p (List.mem_cons_of_mem pg hp)
    unfold scrapeReportsLoop
    rw [if_neg (by simp [h1]), if_neg (by simp [List.length_eq_zero, h2])]
    simp only [processItems_eq]
    cases hany : pg.items.any (fun it => !keepItem cutoff it) with
    | true =>
      simp [processedPrefix, hany, pageKeptRows]
    | false =>
      rw [if_neg (by simp)]
      cases rest with
      | nil =>
        simp [processedPrefix, hany, pageKeptRows]
      | cons r rs =>
        dsimp only
        rw [ih (rows ++ (pg.items.filter (keepItem cutoff)).map (mkReportRow u ts))
          (n + 1) hrest]
        simp [processedPrefix, hany, pageKeptRows, List.append_assoc]
        omega

/-- C1: on a report feed whose pages load and are nonempty, a cleanly parsed
date strictly before the cutoff drops its item while the rest of the page is
still scanned, and after that page no further pages are fetched: the scraper
returns exactly the kept items (after-cutoff and unparseable) of every page
up to and including the first page containing a before-cutoff item, and
navigates to exactly those pages — in particular, in the 3-page scenario
where page 1 is after the cutoff and page 2 straddles it, the output is all
of page 1 plus the kept items of page 2, and page 3 is never fetched. -/
theorem c1_cutoff_gate (cutoff : PyDateTime) (u ts : String)
    (feed : List ReportPage)
    (h : ∀ pg ∈ feed, (waitForReports pg.load).1 = true ∧ pg.items ≠ []) :
    scrape_reports_for_trail cutoff u ts feed =
      ((processedPrefix cutoff feed).flatMap (pageKeptRows cutoff u ts),
       (processedPrefix cutoff feed).length) := by
  unfold scrape_reports_for_trail
  rw [scrapeLoop_char cutoff u ts feed [] 0 h]
  simp

/-- Witness for C1: the 3-page scenario feed with cutoff 2026-01-15 —
pages 1 and 2 are fetched, page 3 is not, and the output is page 1's two
items plus page 2's after-cutoff and unparseable items (the 2026-01-01 item
is dropped). -/
theorem c1_cutoff_gate_witness :
    scrape_reports_for_trail cutoffJan2026 "https://t" "T" scenarioFeed =
      ([mkReportRow "https://t" "T" keepItemA, mkReportRow "https://t" "T" keepItemB,
        mkReportRow "https://t" "T" keepItemC, mkReportRow "https://t" "T" unparseableItem],
       2) :=
  (c1_cutoff_gate cutoffJan2026 "https://t" "T" scenarioFeed (by decide)).trans
    (by decide)

/-- C7: an item whose date string matches none of the accepted formats
(parse returns no value) is kept in the page's output, and the
stop-pagination flag can only have been set by some other item that parsed
cleanly to a date before the cutoff — an unparseable date never drops its
item and never triggers the stop signal. -/
theorem c7_unparseable_fail_open (cutoff : PyDateTime) (u ts : String)
    (items : List ReportItem) (it : ReportItem) (hmem : it ∈ items)
    (hparse : _parse_date_dt (_parse_report_date (pyStrip it.title_text)) = none) :
    mkReportRow u ts it ∈ (processItems cutoff u ts items).1 ∧
    ((processItems cutoff u ts items).2 = true →
      ∃ jt ∈ items, ∃ d,
        _parse_date_dt (_parse_report_date (pyStrip jt.title_text)) = some d ∧
          dtLt d cutoff = true) := by
  rw [processItems_eq]
  constructor
  · exact List.mem_map_of_mem _
      (List.mem_filter.mpr ⟨hmem, by simp [keepItem, hparse]⟩)
  · intro hany
    rw [List.any_eq_true] at hany
    obtain ⟨jt, hjt, hdrop⟩ := hany
    refine ⟨jt, hjt, ?_⟩
    cases hp : _parse_date_dt (_parse_report_date (pyStrip jt.title_text)) with
    | none => simp [keepItem, hp] at hdrop
    | some d =>
      refine ⟨d, rfl, ?_⟩
      cases hlt : dtLt d cutoff with
      | true => rfl
      | false => simp [keepItem, hp, hlt] at hdrop

/-- Witness for C7: the unparseable "sometime last week" item is kept even
on a page that also contains a before-cutoff item. -/
theorem c7_unparseable_fail_open_witness :
    mkReportRow "https://t" "T" unparseableItem ∈
      (processItems cutoffJan2026 "https://t" "T" [oldItem, unparseableItem]).1 :=
  (c7_unparseable_fail_open cutoffJan2026 "https://t" "T" [oldItem, unparseableItem]
    unparseableItem (by decide) (by decide)).1

/-- Cap bound for the listing-page loop: starting below the cap, the final
page count never exceeds it. -/
theorem getHikeUrlsLoop_le (maxPages : Nat) :
    ∀ (feed : List ListingPage) (pn : Nat) (urls : List String),
      pn ≤ maxPages → (getHikeUrlsLoop maxPages feed pn urls).2 ≤ maxPages := by
  intro feed
  induction feed with
  | nil => intro pn urls hpn; exact hpn
  | cons pg rest ih =>
    intro pn urls hpn
    unfold getHikeUrlsLoop
    cases hlt : decide (pn < maxPages) with
    | true =>
      rw [if_pos (of_decide_eq_true hlt)]
      exact ih (pn + 1) _ (of_decide_eq_true hlt)
    | false =>
      rw [if_neg (of_decide_eq_false hlt)]
      exact hpn

/-- C2 (amended): `get_hike_urls` never fetches more listing pages than the
`max_pages` cap (source default 20), no matter how long the feed keeps
serving next links. The per-trail report pagination loop, by contrast, has
no page cap — see the counterexample. -/
theorem c2_page_cap_amended (feed : List ListingPage) (maxPages : Nat) :
    (get_hike_urls feed maxPages).2 ≤ maxPages :=
  getHikeUrlsLoop_le maxPages feed 0 [] (Nat.zero_le maxPages)

/-- Counterexample for C2 as stated: `scrape_reports_for_trail` has no page
cap — a feed of 21 normally-loading pages of after-cutoff reports with next
links throughout makes it fetch all 21 pages, exceeding the claimed
configured maximum of 20. -/
theorem c2_page_cap_counterexample :
    20 < (scrape_reports_for_trail cutoffJan2026
      "https://www.wta.org/go-hiking/hikes/mt-si" "T"
      (List.replicate 21 okPage)).2 := by decide

/-- The report-run seed loop: rows are the concatenation of the successful
seeds' rows in seed order, and every failing seed contributes its error
line to the printed output. -/
theorem seedLoopReports_spec (cutoff : PyDateTime) (ts : String) :
    ∀ seeds : List (String × Except String (List ReportPage)),
      (seedLoopReports cutoff ts seeds).1 =
        seeds.flatMap (fun s => match s.2 with
          | Except.ok feed => (scrape_reports_for_trail cutoff s.1 ts feed).1
          | Except.error _ => []) ∧
      ∀ url e, (url, Except.error e) ∈ seeds →
        errorLine url e ∈ (seedLoopReports cutoff ts seeds).2.2 := by
  intro seeds
  induction seeds with
  | nil => exact ⟨rfl, fun url e h => absurd h (List.not_mem_nil _)⟩
  | cons s rest ih =>
    rcases s with ⟨url0, out0⟩
    cases out0 with
    | ok feed =>
      refine ⟨?_, ?_⟩
      · simp only [seedLoopReports, List.flatMap_cons, ih.1]
      · intro url e hmem
        rcases List.mem_cons.mp hmem with heq | hmem2
        · exact absurd heq (by simp)
        · exact ih.2 url e hmem2
    | error e0 =>
      refine ⟨?_, ?_⟩
      · simp only [seedLoopReports, List.flatMap_cons, ih.1, List.nil_append]
      · intro url e hmem
        rcases List.mem_cons.mp hmem with heq | hmem2
        · simp only [seedLoopReports]
          rcases Prod.mk.injEq .. ▸ heq with ⟨h1, h2⟩
          exact h1 ▸ (by injection h2 with h3; exact h3 ▸ List.mem_cons_self _ _)
        · exact List.mem_cons_of_mem _ (ih.2 url e hmem2)

/-- The hike-run seed loop: analogous to `seedLoopReports_spec`. -/
theorem seedLoopHikes_spec (ts : String) :
    ∀ seeds : List (String × Except String HikeDetailPage),
      (seedLoopHikes ts seeds).1 =
        seeds.filterMap (fun s => match s.2 with
          | Except.ok pg => some (scrape_hike_detail pg s.1 ts)
          | Except.error _ => none) ∧
      ∀ url e, (url, Except.error e) ∈ seeds →
        errorLine url e ∈ (seedLoopHikes ts seeds).2.2 := by
  intro seeds
  induction seeds with
  | nil => exact ⟨rfl, fun url e h => absurd h (List.not_mem_nil _)⟩
  | cons s rest ih =>
    rcases s with ⟨url0, out0⟩
    cases out0 with
    | ok pg =>
      refine ⟨?_, ?_⟩
      · simp only [seedLoopHikes, List.filterMap_cons, ih.1]
      · intro url e hmem
        rcases List.mem_cons.mp hmem with heq | hmem2
        · exact absurd heq (by simp)
        · exact ih.2 url e hmem2
    | error e0 =>
      refine ⟨?_, ?_⟩
      · simp only [seedLoopHikes, List.filterMap_cons, ih.1]
      · intro url e hmem
        rcases List.mem_cons.mp hmem with heq | hmem2
        · simp only [seedLoopHikes]
          rcases Prod.mk.injEq .. ▸ heq with ⟨h1, h2⟩
          exact h1 ▸ (by injection h2 with h3; exact h3 ▸ List.mem_cons_self _ _)
        · exact List.mem_cons_of_mem _ (ih.2 url e hmem2)

/-- C3 (amended): with a valid session, an exception on one seed is caught —
the run completes over all seeds, its aggregated rows are exactly the
successful seeds' rows in seed order, and each caught error is reported as
a printed `ERROR scraping <url>: <error>` line; the errors are not
aggregated into the run's returned result, which carries rows only. -/
theorem c3_error_handling_amended (u ts d ts2 d2 : String) (cutoff : PyDateTime)
    (seedsR : List (String × Except String (List ReportPage)))
    (seedsH : List (String × Except String HikeDetailPage))
    (hauth : (verify_auth u).1 = true) :
    (runReports u seedsR cutoff ts d).rows =
      seedsR.flatMap (fun s => match s.2 with
        | Except.ok feed => (scrape_reports_for_trail cutoff s.1 ts feed).1
        | Except.error _ => []) ∧
    (∀ url e, (url, Except.error e) ∈ seedsR →
      errorLine url e ∈ (runReports u seedsR cutoff ts d).log) ∧
    (runHikes u seedsH ts2 d2).rows =
      seedsH.filterMap (fun s => match s.2 with
        | Except.ok pg => some (scrape_hike_detail pg s.1 ts2)
        | Except.error _ => none) ∧
    (∀ url e, (url, Except.error e) ∈ seedsH →
      errorLine url e ∈ (runHikes u seedsH ts2 d2).log) := by
  have hR : runReports u seedsR cutoff ts d =
      (let acc := seedLoopReports cutoff ts seedsR
       let w := write_csv (csv_path "wta_reports" d) acc.1
       ⟨acc.1, acc.2.1, w.1, (verify_auth u).2 ++ acc.2.2 ++ w.2⟩) := by
    unfold runReports
    rw [if_neg (by simp [hauth])]
  have hH : runHikes u seedsH ts2 d2 =
      (let acc := seedLoopHikes ts2 seedsH
       let w := write_csv (csv_path "wta_hikes" d2) acc.1
       ⟨acc.1, acc.2.1, w.1, (verify_auth u).2 ++ acc.2.2 ++ w.2⟩) := by
    unfold runHikes
    rw [if_neg (by simp [hauth])]
  refine ⟨?_, ?_, ?_, ?_⟩
  · rw [hR]
    exact (seedLoopReports_spec cutoff ts seedsR).1
  · intro url e hmem
    rw [hR]
    exact List.mem_append_left _
      (List.mem_append_right _ ((seedLoopReports_spec cutoff ts seedsR).2 url e hmem))
  · rw [hH]
    exact (seedLoopHikes_spec ts2 seedsH).1
  · intro url e hmem
    rw [hH]
    exact List.mem_append_left _
      (List.mem_append_right _ ((seedLoopHikes_spec ts2 seedsH).2 url e hmem))

/-- Witness for C3 (amended) at a concrete two-seed run with one failure. -/
theorem c3_error_handling_amended_witness :
    (runReports "https://www.wta.org/ok"
        [("https://bad", Except.error "net down"), ("https://good", Except.ok goodReportFeed)]
        cutoffJan2026 "T" "20260115").rows =
      (scrape_reports_for_trail cutoffJan2026 "https://good" "T" goodReportFeed).1 ∧
    errorLine "https://bad" "net down" ∈
      (runReports "https://www.wta.org/ok"
        [("https://bad", Except.error "net down"), ("https://good", Except.ok goodReportFeed)]
        cutoffJan2026 "T" "20260115").log :=
  have h := c3_error_handling_amended "https://www.wta.org/ok" "T" "20260115" "T" "20260115"
    cutoffJan2026
    [("https://bad", Except.error "net down"), ("https://good", Except.ok goodReportFeed)]
    [] (by decide)
  ⟨h.1.trans (by decide), h.2.1 "https://bad" "net down" (List.mem_cons_self _ _)⟩

/-- Counterexample for C3 as stated: the claim requires each caught error to
be recorded as a (seed URL, error) entry in the run's aggregated error list
and to appear in the final result. The run's final aggregated result (the
rows and the file write handed to serialization) provably contains nothing
about the failing seed — it is identical to the result of the run without
that seed — and the error appears only as a printed log line. -/
theorem c3_error_handling_counterexample :
    (runReports "https://www.wta.org/ok"
        [("https://bad", Except.error "net down"), ("https://good", Except.ok goodReportFeed)]
        cutoffJan2026 "T" "20260115").rows =
      (runReports "https://www.wta.org/ok" [("https://good", Except.ok goodReportFeed)]
        cutoffJan2026 "T" "20260115").rows ∧
    (runReports "https://www.wta.org/ok"
        [("https://bad", Except.error "net down"), ("https://good", Except.ok goodReportFeed)]
        cutoffJan2026 "T" "20260115").written =
      (runReports "https://www.wta.org/ok" [("https://good", Except.ok goodReportFeed)]
        cutoffJan2026 "T" "20260115").written ∧
    errorLine "https://bad" "net down" ∈
      (runReports "https://www.wta.org/ok"
        [("https://bad", Except.error "net down"), ("https://good", Except.ok goodReportFeed)]
        cutoffJan2026 "T" "20260115").log := by decide

/-- Dict assignment never changes the key set or its order. -/
theorem setField_keys (r : Row) (k : String) (v : Value) :
    (setField r k v).map Prod.fst = r.map Prod.fst := by
  induction r with
  | nil => rfl
  | cons kv rest ih =>
    simp only [setField, List.map_cons] at ih ⊢
    rw [ih]
    cases hk : kv.1 == k with
    | true => simp [eq_of_beq hk]
    | false => simp

/-- Dict assignment to one key does not change lookups of another key. -/
theorem lookup_setField_ne (r : Row) (k k' : String) (v : Value)
    (h : (k' == k) = false) :
    List.lookup k' (setField r k v) = List.lookup k' r := by
  induction r with
  | nil => rfl
  | cons kv rest ih =>
    rcases kv with ⟨k1, v1⟩
    simp only [setField, List.map_cons] at ih ⊢
    cases hk : k1 == k with
    | true =>
      rw [if_pos rfl]
      have hi : (k' == k1) = false := by rw [eq_of_beq hk]; exact h
      simp only [List.lookup, h, hi]
      exact ih
    | false =>
      rw [if_neg (by simp)]
      simp only [List.lookup]
      cases hk' : k' == k1 with
      | true => rfl
      | false => exact ih

/-- The stats-loop body preserves the key set. -/
theorem applyStat_keys (r : Row) (st : HikeStat) :
    (applyStat r st).map Prod.fst = r.map Prod.fst := by
  unfold applyStat
  dsimp only
  split_ifs <;> simp [setField_keys]

/-- The stats-loop body only writes the six stat fields. -/
theorem applyStat_lookup (r : Row) (st : HikeStat) (k' : String)
    (h1 : (k' == "distance_miles") = false) (h2 : (k' == "trail_type") = false)
    (h3 : (k' == "elevation_gain_ft") = false)
    (h4 : (k' == "highest_point_ft") = false)
    (h5 : (k' == "difficulty") = false) (h6 : (k' == "required_pass") = false) :
    List.lookup k' (applyStat r st) = List.lookup k' r := by
  unfold applyStat
  dsimp only
  split_ifs <;> simp [lookup_setField_ne, h1, h2, h3, h4, h5, h6]

/-- The whole stats loop preserves the key set. -/
theorem foldl_applyStat_keys (stats : List HikeStat) (r : Row) :
    (stats.foldl applyStat r).map Prod.fst = r.map Prod.fst := by
  induction stats generalizing r with
  | nil => rfl
  | cons st rest ih => rw [List.foldl_cons, ih, applyStat_keys]

/-- The whole stats loop only writes the six stat fields. -/
theorem foldl_applyStat_lookup (stats : List HikeStat) (r : Row) (k' : String)
    (h1 : (k' == "distance_miles") = false) (h2 : (k' == "trail_type") = false)
    (h3 : (k' == "elevation_gain_ft") = false)
    (h4 : (k' == "highest_point_ft") = false)
    (h5 : (k' == "difficulty") = false) (h6 : (k' == "required_pass") = false) :
    List.lookup k' (stats.foldl applyStat r) = List.lookup k' r := by
  induction stats generalizing r with
  | nil => rfl
  | cons st rest ih =>
    rw [List.foldl_cons, ih, applyStat_lookup r st k' h1 h2 h3 h4 h5 h6]

/-- The name stage preserves keys. -/
theorem applyName_keys (o : Option String) (r : Row) :
    (applyName o r).map Prod.fst = r.map Prod.fst := by
  cases o <;> simp [applyName, setField_keys]

/-- The name stage only writes `trail_name`. -/
theorem applyName_lookup (o : Option String) (r : Row) (k' : String)
    (h : (k' == "trail_name") = false) :
    List.lookup k' (applyName o r) = List.lookup k' r := by
  cases o <;> simp [applyName, lookup_setField_ne, h]

/-- The feature-tag stage preserves keys. -/
theorem applyFeatureFlags_keys (fs : List String) (r : Row) :
    (applyFeatureFlags fs r).map Prod.fst = r.map Prod.fst := by
  simp [applyFeatureFlags, setField_keys]

/-- The feature-tag stage only writes `dogs_allowed` and `kid_friendly`. -/
theorem applyFeatureFlags_lookup (fs : List String) (r : Row) (k' : String)
    (h1 : (k' == "dogs_allowed") = false) (h2 : (k' == "kid_friendly") = false) :
    List.lookup k' (applyFeatureFlags fs r) = List.lookup k' r := by
  simp [applyFeatureFlags, lookup_setField_ne, h1, h2]

/-- The region stage preserves keys. -/
theorem applyRegion_keys (o : Option String) (r : Row) :
    (applyRegion o r).map Prod.fst = r.map Prod.fst := by
  cases o <;> simp [applyRegion, setField_keys]

/-- The region stage only writes `location`. -/
theorem applyRegion_lookup (o : Option String) (r : Row) (k' : String)
    (h : (k' == "location") = false) :
    List.lookup k' (applyRegion o r) = List.lookup k' r := by
  cases o <;> simp [applyRegion, lookup_setField_ne, h]

/-- The description stage preserves keys. -/
theorem applyDesc_keys (o : Option String) (r : Row) :
    (applyDesc o r).map Prod.fst = r.map Prod.fst := by
  cases o <;> simp [applyDesc, setField_keys]

/-- The description stage only writes `highlight`. -/
theorem applyDesc_lookup (o : Option String) (r : Row) (k' : String)
    (h : (k' == "highlight") = false) :
    List.lookup k' (applyDesc o r) = List.lookup k' r := by
  cases o <;> simp [applyDesc, lookup_setField_ne, h]

/-- The season stage preserves keys. -/
theorem applySeason_keys (o : Option String) (r : Row) :
    (applySeason o r).map Prod.fst = r.map Prod.fst := by
  cases o <;> simp [applySeason, setField_keys]

/-- The season stage only writes `season_window`. -/
theorem applySeason_lookup (o : Option String) (r : Row) (k' : String)
    (h : (k' == "season_window") = false) :
    List.lookup k' (applySeason o r) = List.lookup k' r := by
  cases o <;> simp [applySeason, lookup_setField_ne, h]

/-- A lookup of a key no extraction stage writes passes through to the
initial record. -/
theorem scrape_hike_detail_lookup_stable (pg : HikeDetailPage) (url ts k' : String)
    (hn : (k' == "trail_name") = false) (hl : (k' == "location") = false)
    (hd : (k' == "distance_miles") = false) (ht : (k' == "trail_type") = false)
    (he : (k' == "elevation_gain_ft") = false)
    (hh : (k' == "highest_point_ft") = false)
    (hdf : (k' == "difficulty") = false) (hrp : (k' == "required_pass") = false)
    (hdo : (k' == "dogs_allowed") = false) (hk : (k' == "kid_friendly") = false)
    (hs : (k' == "season_window") = false) (hhl : (k' == "highlight") = false) :
    List.lookup k' (scrape_hike_detail pg url ts) =
      List.lookup k' (hikeInitRecord url ts) := by
  unfold scrape_hike_detail
  rw [applySeason_lookup _ _ _ hs, applyDesc_lookup _ _ _ hhl,
      applyRegion_lookup _ _ _ hl, applyFeatureFlags_lookup _ _ _ hdo hk,
      foldl_applyStat_lookup _ _ _ hd ht he hh hdf hrp,
      applyName_lookup _ _ _ hn]

/-- With no stat blocks on the page, a lookup of a key only the stats loop
writes passes through to the initial record. -/
theorem scrape_hike_detail_lookup_nostats (pg : HikeDetailPage)
    (url ts k' : String) (hstats : pg.stats = [])
    (hn : (k' == "trail_name") = false) (hl : (k' == "location") = false)
    (hdo : (k' == "dogs_allowed") = false) (hk : (k' == "kid_friendly") = false)
    (hs : (k' == "season_window") = false) (hhl : (k' == "highlight") = false) :
    List.lookup k' (scrape_hike_detail pg url ts) =
      List.lookup k' (hikeInitRecord url ts) := by
  unfold scrape_hike_detail
  rw [applySeason_lookup _ _ _ hs, applyDesc_lookup _ _ _ hhl,
      applyRegion_lookup _ _ _ hl, applyFeatureFlags_lookup _ _ _ hdo hk,
      hstats, List.foldl_nil, applyName_lookup _ _ _ hn]

/-- C6 (amended): every extracted record carries its full fixed key set in
order and a non-null source URL and capture timestamp, even when all content
inputs are absent. Absent content fields are represented as null in hike
detail records; in trip-report records absent text fields are represented
as empty strings — never omitted, but not null (and no report field is ever
null). -/
theorem c6_schema_amended (pg : HikeDetailPage) (url ts tu ts2 : String)
    (it : ReportItem) :
    (scrape_hike_detail pg url ts).map Prod.fst = hikeFieldNames ∧
    List.lookup "wta_url" (scrape_hike_detail pg url ts) = some (Value.str url) ∧
    List.lookup "scraped_at" (scrape_hike_detail pg url ts) = some (Value.str ts) ∧
    (pg.name = none →
      List.lookup "trail_name" (scrape_hike_detail pg url ts) = some Value.null) ∧
    (pg.region = none →
      List.lookup "location" (scrape_hike_detail pg url ts) = some Value.null) ∧
    (pg.desc = none →
      List.lookup "highlight" (scrape_hike_detail pg url ts) = some Value.null) ∧
    (pg.season = none →
      List.lookup "season_window" (scrape_hike_detail pg url ts) = some Value.null) ∧
    (pg.stats = [] →
      List.lookup "distance_miles" (scrape_hike_detail pg url ts) = some Value.null ∧
      List.lookup "elevation_gain_ft" (scrape_hike_detail pg url ts) = some Value.null ∧
      List.lookup "highest_point_ft" (scrape_hike_detail pg url ts) = some Value.null ∧
      List.lookup "difficulty" (scrape_hike_detail pg url ts) = some Value.null ∧
      List.lookup "trail_type" (scrape_hike_detail pg url ts) = some Value.null ∧
      List.lookup "required_pass" (scrape_hike_detail pg url ts) = some Value.null) ∧
    (mkReportRow tu ts2 it).map Prod.fst = reportFieldNames ∧
    List.lookup "trail_url" (mkReportRow tu ts2 it) = some (Value.str tu) ∧
    List.lookup "scraped_at" (mkReportRow tu ts2 it) = some (Value.str ts2) ∧
    (it.author = none →
      List.lookup "author" (mkReportRow tu ts2 it) = some (Value.str "")) ∧
    (it.conditions = none →
      List.lookup "conditions" (mkReportRow tu ts2 it) = some (Value.str "")) ∧
    (it.text_summary = none →
      List.lookup "text_summary" (mkReportRow tu ts2 it) = some (Value.str "")) ∧
    (∀ kv ∈ mkReportRow tu ts2 it, kv.2 ≠ Value.null) := by
  refine ⟨?_, ?_, ?_, ?_, ?_, ?_, ?_, ?_, rfl, rfl, rfl, ?_, ?_, ?_, ?_⟩
  · unfold scrape_hike_detail
    rw [applySeason_keys, applyDesc_keys, applyRegion_keys, applyFeatureFlags_keys,
        foldl_applyStat_keys, applyName_keys]
    rfl
  · rw [scrape_hike_detail_lookup_stable pg url ts "wta_url" (by decide) (by decide)
      (by decide) (by decide) (by decide) (by decide) (by decide) (by decide)
      (by decide) (by decide) (by decide) (by decide)]
    rfl
  · rw [scrape_hike_detail_lookup_stable pg url ts "scraped_at" (by decide) (by decide)
      (by decide) (by decide) (by decide) (by decide) (by decide) (by decide)
      (by decide) (by decide) (by decide) (by decide)]
    rfl
  · intro h
    unfold scrape_hike_detail
    rw [applySeason_lookup _ _ _ (by decide), applyDesc_lookup _ _ _ (by decide),
        applyRegion_lookup _ _ _ (by decide),
        applyFeatureFlags_lookup _ _ _ (by decide) (by decide),
        foldl_applyStat_lookup _ _ _ (by decide) (by decide) (by decide) (by decide)
          (by decide) (by decide), h]
    rfl
  · intro h
    unfold scrape_hike_detail
    rw [applySeason_lookup _ _ _ (by decide), applyDesc_lookup _ _ _ (by decide), h]
    simp only [applyRegion]
    rw [applyFeatureFlags_lookup _ _ _ (by decide) (by decide),
        foldl_applyStat_lookup _ _ _ (by decide) (by decide) (by decide) (by decide)
          (by decide) (by decide), applyName_lookup _ _ _ (by decide)]
    rfl
  · intro h
    unfold scrape_hike_detail
    rw [applySeason_lookup _ _ _ (by decide), h]
    simp only [applyDesc]
    rw [applyRegion_lookup _ _ _ (by decide),
        applyFeatureFlags_lookup _ _ _ (by decide) (by decide),
        foldl_applyStat_lookup _ _ _ (by decide) (by decide) (by decide) (by decide)
          (by decide) (by decide), applyName_lookup _ _ _ (by decide)]
    rfl
  · intro h
    unfold scrape_hike_detail
    rw [h]
    simp only [applySeason]
    rw [applyDesc_lookup _ _ _ (by decide), applyRegion_lookup _ _ _ (by decide),
        applyFeatureFlags_lookup _ _ _ (by decide) (by decide),
        foldl_applyStat_lookup _ _ _ (by decide) (by decide) (by decide) (by decide)
          (by decide) (by decide), applyName_lookup _ _ _ (by decide)]
    rfl
  · intro h
    refine ⟨?_, ?_, ?_, ?_, ?_, ?_⟩ <;>
      rw [scrape_hike_detail_lookup_nostats pg url ts _ h (by decide) (by decide)
        (by decide) (by decide) (by decide) (by decide)] <;> rfl
  · intro h
    simp only [mkReportRow, h]
    rfl
  · intro h
    simp only [mkReportRow, h]
    rfl
  · intro h
    simp only [mkReportRow, h]
    rfl
  · intro kv hkv
    simp only [mkReportRow, List.mem_cons, List.not_mem_nil, or_false] at hkv
    rcases hkv with rfl | rfl | rfl | rfl | rfl | rfl | rfl | rfl <;> simp

/-- Counterexample for C6 as stated: a trip-report item whose author element
is absent yields an `author` field holding the empty string, not null — so
"absent content fields are represented as null" fails on report records. -/
theorem c6_schema_counterexample :
    List.lookup "author" (mkReportRow "https://t" "T" bareReportItem) =
      some (Value.str "") ∧
    Value.str "" ≠ Value.null := by decide

/-- Witness for C6 (amended) on an all-absent detail page and report item. -/
theorem c6_schema_amended_witness :
    (scrape_hike_detail emptyHikePage "https://u" "T").map Prod.fst = hikeFieldNames ∧
    List.lookup "wta_url" (scrape_hike_detail emptyHikePage "https://u" "T") =
      some (Value.str "https://u") ∧
    List.lookup "trail_name" (scrape_hike_detail emptyHikePage "https://u" "T") =
      some Value.null ∧
    List.lookup "distance_miles" (scrape_hike_detail emptyHikePage "https://u" "T") =
      some Value.null ∧
    List.lookup "conditions" (mkReportRow "https://t" "T" bareReportItem) =
      some (Value.str "") := by
  obtain ⟨h1, h2, h3, h4, h5, h6, h7, h8, h9, h10, h11, h12, h13, h14, h15⟩ :=
    c6_schema_amended emptyHikePage "https://u" "T" "https://t" "T" bareReportItem
  exact ⟨h1, h2, h4 rfl, (h8 rfl).1, h13 rfl⟩

/-- A prefix of `l` is also a prefix of `l ++ m`. -/
theorem subAtStart_append_of (p : List Char) :
    ∀ (l m : List Char), subAtStart p l = true → subAtStart p (l ++ m) = true := by
  induction p with
  | nil => intro l m _; rfl
  | cons a as ih =>
    intro l m h
    cases l with
    | nil => simp [subAtStart] at h
    | cons b bs =>
      simp only [subAtStart, Bool.and_eq_true, List.cons_append] at h ⊢
      exact ⟨h.1, ih bs m h.2⟩

/-- An occurrence inside `l` is an occurrence inside `pre ++ l`. -/
theorem hasSubList_append_left (sub pre l : List Char)
    (h : hasSubList sub l = true) : hasSubList sub (pre ++ l) = true := by
  induction pre with
  | nil => exact h
  | cons c cs ih =>
    simp only [List.cons_append, hasSubList, Bool.or_eq_true]
    exact Or.inr ih

/-- Startswith survives appending after a fixed absolute-domain prefix. -/
theorem pyStartsWith_domain_append (pre href : String)
    (h : subAtStart pre.toList "https://www.wta.org".toList = true) :
    pyStartsWith pre ("https://www.wta.org" ++ href) = true := by
  unfold pyStartsWith
  have hl : ("https://www.wta.org" ++ href).toList =
      "https://www.wta.org".toList ++ href.toList := rfl
  rw [hl]
  exact subAtStart_append_of _ _ _ h

/-- Substring occurrence survives domain resolution. -/
theorem pyInStr_domain_append (sub href : String)
    (h : pyInStr sub href = true) :
    pyInStr sub ("https://www.wta.org" ++ href) = true := by
  unfold pyInStr at h ⊢
  have hl : ("https://www.wta.org" ++ href).toList =
      "https://www.wta.org".toList ++ href.toList := rfl
  rw [hl]
  exact hasSubList_append_left _ _ _ h

/-- What a produced candidate URL looks like: it contains the hike-detail
segment and is either a served absolute href kept verbatim, or a served
relative href resolved against the site domain. -/
theorem hikeCandidate_shape (href? : Option String) (u : String)
    (h : hikeCandidate href? = some u) :
    pyInStr "/go-hiking/hikes/" u = true ∧
    ((∃ href, href? = some href ∧ pyStartsWith "http" href = true ∧ u = href) ∨
     (∃ href, href? = some href ∧
        u = "https://www.wta.org" ++ href)) := by
  cases href? with
  | none => exact absurd h (by simp [hikeCandidate])
  | some href =>
    simp only [hikeCandidate] at h
    cases hc : href != "" && pyInStr "/go-hiking/hikes/" href with
    | false =>
      rw [hc] at h
      simp at h
    | true =>
      rw [hc] at h
      rw [if_pos rfl] at h
      have hseg : pyInStr "/go-hiking/hikes/" href = true := by
        have h2 := hc
        simp only [Bool.and_eq_true] at h2
        exact h2.2
      have hu : (if pyStartsWith "http" href then href
          else "https://www.wta.org" ++ href) = u := by injection h
      cases hs : pyStartsWith "http" href with
      | true =>
        rw [hs, if_pos rfl] at hu
        subst hu
        exact ⟨hseg, Or.inl ⟨href, rfl, hs, rfl⟩⟩
      | false =>
        rw [hs] at hu
        rw [if_neg (by simp)] at hu
        subst hu
        exact ⟨pyInStr_domain_append _ _ hseg, Or.inr ⟨href, rfl, rfl⟩⟩

/-- If an element's lookup via `contains` is false it is not a member. -/
theorem contains_false_not_mem (acc : List String) (x : String)
    (h : acc.contains x = false) : x ∉ acc := by
  intro hm
  have ht : acc.contains x = true := List.elem_iff.mpr hm
  rw [ht] at h
  simp at h

/-- First-occurrence dedup accumulation preserves `Nodup`. -/
theorem dedupFirst_foldl_nodup (l : List String) :
    ∀ acc : List String, acc.Nodup →
      (l.foldl (fun acc x => if acc.contains x then acc else acc ++ [x]) acc).Nodup := by
  induction l with
  | nil => intro acc h; exact h
  | cons x xs ih =>
    intro acc h
    rw [List.foldl_cons]
    cases hc : acc.contains x with
    | true =>
      rw [if_pos rfl]
      exact ih acc h
    | false =>
      rw [if_neg (by simp)]
      refine ih _ ?_
      rw [List.nodup_append]
      exact ⟨h, List.nodup_singleton x,
        fun a ha hb => (List.mem_singleton.mp hb ▸ contains_false_not_mem acc x hc)
          (List.mem_singleton.mp hb ▸ ha)⟩

/-- Everything the dedup accumulation produces came from the accumulator or
the input list. -/
theorem dedupFirst_foldl_subset (l : List String) :
    ∀ (acc : List String) (u : String),
      u ∈ l.foldl (fun acc x => if acc.contains x then acc else acc ++ [x]) acc →
      u ∈ acc ∨ u ∈ l := by
  induction l with
  | nil => intro acc u h; exact Or.inl h
  | cons x xs ih =>
    intro acc u h
    rw [List.foldl_cons] at h
    rcases ih _ u h with hin | hin
    · split at hin
      · exact Or.inl hin
      · rcases List.mem_append.mp hin with h1 | h1
        · exact Or.inl h1
        · exact Or.inr (List.mem_singleton.mp h1 ▸ List.mem_cons_self x xs)
    · exact Or.inr (List.mem_cons_of_mem x hin)

/-- The inner link-loop body equals filtering to the candidate and applying
the first-occurrence dedup step. -/
theorem addHikeLink_eq (urls : List String) (href? : Option String) :
    addHikeLink urls href? =
      match hikeCandidate href? with
      | none => urls
      | some full => if urls.contains full then urls else urls ++ [full] := by
  cases href? with
  | none => rfl
  | some href =>
    simp only [addHikeLink, hikeCandidate]
    cases hc : href != "" && pyInStr "/go-hiking/hikes/" href with
    | true => rfl
    | false => rfl

/-- The whole link loop of one listing page in dedup-step form. -/
theorem foldl_addHikeLink_eq (links : List (Option String)) :
    ∀ urls : List String,
      links.foldl addHikeLink urls =
        (links.filterMap hikeCandidate).foldl
          (fun acc x => if acc.contains x then acc else acc ++ [x]) urls := by
  induction links with
  | nil => intro urls; rfl
  | cons href? rest ih =>
    intro urls
    rw [List.foldl_cons, ih, addHikeLink_eq]
    cases hc : hikeCandidate href? with
    | none =>
      dsimp only
      simp only [List.filterMap_cons, hc]
    | some full =>
      dsimp only
      simp only [List.filterMap_cons, hc, List.foldl_cons]

/-- The listing-page loop produces the first-occurrence dedup of the
candidates of the pages it visits. -/
theorem getHikeUrlsLoop_eq (maxPages : Nat) :
    ∀ (feed : List ListingPage) (pn : Nat) (urls : List String),
      (getHikeUrlsLoop maxPages feed pn urls).1 =
        ((feed.take (maxPages - pn)).flatMap
            (fun pg => pg.links.filterMap hikeCandidate)).foldl
          (fun acc x => if acc.contains x then acc else acc ++ [x]) urls := by
  intro feed
  induction feed with
  | nil => intro pn urls; simp [getHikeUrlsLoop]
  | cons pg rest ih =>
    intro pn urls
    unfold getHikeUrlsLoop
    cases hlt : decide (pn < maxPages) with
    | true =>
      rw [if_pos (of_decide_eq_true hlt)]
      rw [ih (pn + 1)]
      have hk : maxPages - pn = (maxPages - (pn + 1)) + 1 := by
        have := of_decide_eq_true hlt
        omega
      rw [hk, List.take_succ_cons, List.flatMap_cons, List.foldl_append,
        foldl_addHikeLink_eq]
    | false =>
      rw [if_neg (of_decide_eq_false hlt)]
      have h0 : maxPages - pn = 0 := by
        have := of_decide_eq_false hlt
        omega
      rw [h0]
      simp

/-- C10: the URL list `get_hike_urls` returns is exactly the
first-occurrence deduplication of the filtered, domain-resolved candidate
links of the visited pages — hence it has no duplicates (a link seen again
on a later page is not appended twice), every entry contains the
hike-detail segment, every entry starts with `http` (relative hrefs are
resolved against the site domain before insertion, absolute ones kept
verbatim), and when the source's absolute hrefs are well-formed every
returned URL is absolute. -/
theorem c10_unique_url_collection (feed : List ListingPage) (maxPages : Nat) :
    (get_hike_urls feed maxPages).1 = dedupFirst (hikeCandidates feed maxPages) ∧
    (get_hike_urls feed maxPages).1.Nodup ∧
    (∀ u ∈ (get_hike_urls feed maxPages).1,
      pyInStr "/go-hiking/hikes/" u = true ∧ pyStartsWith "http" u = true ∧
      (pyStartsWith "https://www.wta.org" u = true ∨ ∃ pg ∈ feed, some u ∈ pg.links)) ∧
    ((∀ pg ∈ feed, ∀ href : String, some href ∈ pg.links →
        pyStartsWith "http" href = true →
        (pyStartsWith "http://" href = true ∨ pyStartsWith "https://" href = true)) →
      ∀ u ∈ (get_hike_urls feed maxPages).1,
        pyStartsWith "http://" u = true ∨ pyStartsWith "https://" u = true) := by
  have hmain : (get_hike_urls feed maxPages).1 =
      dedupFirst (hikeCandidates feed maxPages) := by
    unfold get_hike_urls dedupFirst hikeCandidates
    rw [getHikeUrlsLoop_eq maxPages feed 0 [], Nat.sub_zero]
  have hprov : ∀ u ∈ (get_hike_urls feed maxPages).1,
      ∃ pg ∈ feed, ∃ href?, href? ∈ pg.links ∧ hikeCandidate href? = some u := by
    intro u hu
    rw [hmain] at hu
    have hu2 : u ∈ hikeCandidates feed maxPages := by
      unfold dedupFirst at hu
      rcases dedupFirst_foldl_subset _ _ _ hu with h0 | h0
      · exact absurd h0 (List.not_mem_nil u)
      · exact h0
    unfold hikeCandidates at hu2
    rcases List.mem_flatMap.mp hu2 with ⟨pg, hpg, hupg⟩
    rcases List.mem_filterMap.mp hupg with ⟨href?, hh, hcand⟩
    exact ⟨pg, List.mem_of_mem_take hpg, href?, hh, hcand⟩
  refine ⟨hmain, ?_, ?_, ?_⟩
  · rw [hmain]
    unfold dedupFirst
    exact dedupFirst_foldl_nodup _ [] List.nodup_nil
  · intro u hu
    rcases hprov u hu with ⟨pg, hpg, href?, hh, hcand⟩
    rcases hikeCandidate_shape href? u hcand with ⟨hseg, habs | hrel⟩
    · rcases habs with ⟨href, heq, hhttp, hueq⟩
      subst hueq
      exact ⟨hseg, hhttp, Or.inr ⟨pg, hpg, heq ▸ hh⟩⟩
    · rcases hrel with ⟨href, heq, hueq⟩
      subst hueq
      exact ⟨hseg, pyStartsWith_domain_append "http" href (by decide),
        Or.inl (pyStartsWith_domain_append "https://www.wta.org" href (by decide))⟩
  · intro hwf u hu
    rcases hprov u hu with ⟨pg, hpg, href?, hh, hcand⟩
    rcases hikeCandidate_shape href? u hcand with ⟨hseg, habs | hrel⟩
    · rcases habs with ⟨href, heq, hhttp, hueq⟩
      subst hueq
      exact hwf pg hpg u (heq ▸ hh) hhttp
    · rcases hrel with ⟨href, heq, hueq⟩
      subst hueq
      exact Or.inr (pyStartsWith_domain_append "https://" href (by decide))

/-- Witness for C10 on a concrete two-page feed with a duplicate, a null
href, an empty href, a non-hike link, and one absolute link. -/
theorem c10_unique_url_collection_witness :
    (get_hike_urls sampleListingFeed 20).1 =
      dedupFirst (hikeCandidates sampleListingFeed 20) ∧
    (get_hike_urls sampleListingFeed 20).1 =
      ["https://www.wta.org/go-hiking/hikes/mt-si",
       "https://www.wta.org/go-hiking/hikes/mailbox-peak",
       "https://www.wta.org/go-hiking/hikes/granite-mountain"] ∧
    (pyStartsWith "http://" "https://www.wta.org/go-hiking/hikes/mt-si" = true ∨
      pyStartsWith "https://" "https://www.wta.org/go-hiking/hikes/mt-si" = true) := by
  have h := c10_unique_url_collection sampleListingFeed 20
  have hwf : ∀ pg ∈ sampleListingFeed, ∀ href : String, some href ∈ pg.links →
      pyStartsWith "http" href = true →
      (pyStartsWith "http://" href = true ∨ pyStartsWith "https://" href = true) := by
    intro pg hpg href hmem hhttp
    unfold sampleListingFeed at hpg
    rcases List.mem_cons.mp hpg with rfl | hpg2
    · simp only [List.mem_cons, List.not_mem_nil, or_false] at hmem
      rcases hmem with hm | hm | hm | hm | hm
      · rw [Option.some.injEq] at hm
        subst hm
        exact absurd hhttp (by decide)
      · rw [Option.some.injEq] at hm
        subst hm
        exact Or.inr (by decide)
      · exact Option.noConfusion hm
      · rw [Option.some.injEq] at hm
        subst hm
        exact absurd hhttp (by decide)
      · rw [Option.some.injEq] at hm
        subst hm
        exact absurd hhttp (by decide)
    · rcases List.mem_cons.mp hpg2 with rfl | hpg3
      · simp only [List.mem_cons, List.not_mem_nil, or_false] at hmem
        rcases hmem with hm | hm
        · rw [Option.some.injEq] at hm
          subst hm
          exact absurd hhttp (by decide)
        · rw [Option.some.injEq] at hm
          subst hm
          exact absurd hhttp (by decide)
      · exact absurd hpg3 (List.not_mem_nil pg)
  refine ⟨h.1, by decide, ?_⟩
  exact h.2.2.2 hwf "https://www.wta.org/go-hiking/hikes/mt-si" (by decide)

/-- Sanity of the strptime embedding: the four accepted formats parse, a
calendar-invalid date raises (returns none) as CPython does, free text is
unparseable, and the em-dash title split extracts the date portion. -/
theorem parse_date_embedding_sanity :
    _parse_date_dt "Feb. 12, 2026" = some ⟨2026, 2, 12, 0, 0, 0⟩ ∧
    _parse_date_dt "February 1, 3000" = some ⟨3000, 2, 1, 0, 0, 0⟩ ∧
    _parse_date_dt "Jan 3, 2026" = some ⟨2026, 1, 3, 0, 0, 0⟩ ∧
    _parse_date_dt " 2026-2-7 " = some ⟨2026, 2, 7, 0, 0, 0⟩ ∧
    _parse_date_dt "February 30, 2026" = none ∧
    _parse_date_dt "sometime last week" = none ∧
    _parse_report_date "Mt Si — Feb. 12, 2026" = "Feb. 12, 2026" := by decide
